import Mathlib

/-!
Shallow embedding of `src/crates/ssh/ssh-aranya.rs` (the `SshAccessManager`
of the aranya-platform SSH access pipeline).

The Rust code issues graph actions through an external `Client`, reads and
writes files through `tokio::fs`, and deploys key files to hosts.  We model
every external call through an `Env` record that decides each call's result,
and every method as a function returning the `Except`-result of the Rust
function together with the ordered trace of externally visible events
(graph actions attempted, file writes attempted, deployments) that the
method performed, in program order.  Rust's `?` operator is modelled by
`andThen`, which stops the sequence at the first error while keeping the
trace of what already happened.

Machine integers: `hash_hostname` works in wrapping `u32`; we model it on
`Nat` with explicit reduction modulo `2 ^ 32`.
-/

/-- `UserId` (aranya_crypto): a 32-byte identifier, modelled as a byte list. -/
abbrev UserId := List Nat

/-- `UserId::new([0u8; 32])`: the all-zero identifier the code uses as a
placeholder when "extracting" an identity from an effect. -/
def zeroUserId : UserId := List.replicate 32 0

/-- Key bundle: opaque public-key material; the code only passes it through. -/
abbrev KeyBundle := List Nat

/-- `Role`: graph roles; the SSH roles are `Role::Custom(1001)` and
`Role::Custom(1002)` in the source. -/
inductive Role where
  | admin : Role
  | member : Role
  | custom (n : Nat) : Role
deriving DecidableEq, Repr

/-- `ChanOp`: the channel operation passed to `assign_label`; the code only
uses `ChanOp::Open`. -/
inductive ChanOp where
  | chanOpen : ChanOp
deriving DecidableEq, Repr

/-- `VmEffect`: the code inspects `effect.name` and (per its own comment)
should extract identity data from the effect payload. -/
structure Effect where
  name : String
  data : List Nat
deriving DecidableEq, Repr

/-- `pub const SSH_LABEL: Label = Label::new(1000)` -/
def SSH_LABEL : Nat := 1000

/-- `pub const SSH_ADMIN_ROLE: Role = Role::Custom(1001)` -/
def SSH_ADMIN_ROLE : Role := Role.custom 1001

/-- `pub const SSH_USER_ROLE: Role = Role.Custom(1002)` -/
def SSH_USER_ROLE : Role := Role.custom 1002

/-- UTF-8 encoding of one character as its byte values, exactly the bytes
Rust's `str::bytes()` yields for that scalar value. -/
def utf8BytesOfChar (c : Char) : List Nat :=
  let n := c.toNat
  if n < 128 then [n]
  else if n < 2048 then
    [192 + n / 64, 128 + n % 64]
  else if n < 65536 then
    [224 + n / 4096, 128 + (n / 64) % 64, 128 + n % 64]
  else
    [240 + n / 262144, 128 + (n / 4096) % 64, 128 + (n / 64) % 64, 128 + n % 64]

/-- The UTF-8 byte sequence of a string, as in Rust's `hostname.bytes()`. -/
def strBytes (s : String) : List Nat :=
  s.data.flatMap utf8BytesOfChar

/-- The loop body of `hash_hostname`:
`hash = hash.wrapping_mul(31).wrapping_add(byte as u32)` folded over the
bytes, with wrapping `u32` arithmetic modelled as reduction mod `2 ^ 32`. -/
def rollHash (bytes : List Nat) : Nat :=
  bytes.foldl (fun h b => (h * 31 + b) % 4294967296) 0

/-- `fn hash_hostname(&self, hostname: &str) -> u32` (ssh-aranya.rs,
lines 248-257): multiplicative rolling hash of the UTF-8 bytes, then
`2000 + (hash % 1000)`. -/
def hash_hostname (hostname : String) : Nat :=
  2000 + rollHash (strBytes hostname) % 1000

/-- The spec's description of `deriveLabel` in its own words: seed 0,
multiplier 31, unsigned 32-bit wrapping arithmetic accumulated byte-wise
over the UTF-8 bytes, then `2000 + (hash mod 1000)`.  Kept separate from
`hash_hostname` so the two can be compared. -/
def deriveLabelSpec (hostname : String) : Nat :=
  2000 + (strBytes hostname).foldl (fun h b => (h * 31 + b) % 4294967296) 0 % 1000

/-! ## Events, environment, and the short-circuit combinator -/

/-- One externally visible step of the manager, in program order.  Calls to
the graph client and file writes carry an `ok` flag recording whether the
environment accepted the call (Rust's `?` stops the method at the first
`false`).  `deploy` models `deploy_keys_to_host`, which in the source always
succeeds (its `scp` is commented out). -/
inductive Event where
  | defineLabel (l : Nat) (ok : Bool)
  | addMember (keys : KeyBundle) (ok : Bool)
  | assignRole (u : UserId) (r : Role) (ok : Bool)
  | assignLabel (u : UserId) (l : Nat) (op : ChanOp) (ok : Bool)
  | revokeLabel (u : UserId) (l : Nat) (ok : Bool)
  | revokeRole (u : UserId) (r : Role) (ok : Bool)
  | removeMember (u : UserId) (ok : Bool)
  | syncPeer (ok : Bool)
  | readHosts (ok : Bool)
  | fileWrite (path : String) (content : String) (ok : Bool)
  | deploy (host : String) (path : String)
deriving DecidableEq, Repr

/-- Did this event attempt a graph (client) action? -/
def Event.isGraph : Event → Bool
  | Event.defineLabel _ _ => true
  | Event.addMember _ _ => true
  | Event.assignRole _ _ _ => true
  | Event.assignLabel _ _ _ _ => true
  | Event.revokeLabel _ _ _ => true
  | Event.revokeRole _ _ _ => true
  | Event.removeMember _ _ => true
  | Event.syncPeer _ => true
  | _ => false

/-- Did this event touch local key files or deployment (a file write or a
deployment to a host)? -/
def Event.isFS : Event → Bool
  | Event.fileWrite _ _ _ => true
  | Event.deploy _ _ => true
  | _ => false

/-- The `ok` flag of an event (`deploy` always succeeds in the source). -/
def Event.okFlag : Event → Bool
  | Event.defineLabel _ ok => ok
  | Event.addMember _ ok => ok
  | Event.assignRole _ _ ok => ok
  | Event.assignLabel _ _ _ ok => ok
  | Event.revokeLabel _ _ ok => ok
  | Event.revokeRole _ _ ok => ok
  | Event.removeMember _ ok => ok
  | Event.syncPeer ok => ok
  | Event.readHosts ok => ok
  | Event.fileWrite _ _ ok => ok
  | Event.deploy _ _ => true

/-- Is this event a (successful or failed) `remove_member` call? -/
def Event.isRemoveMember : Event → Bool
  | Event.removeMember _ _ => true
  | _ => false

/-- The environment: the result each external collaborator returns for each
call.  Graph actions return effect lists (`Result<Vec<Effect>>`), reading
`hosts.txt` returns its text, `fs::write` may fail per path. -/
structure Env where
  defineLabelRes : Nat → Except String (List Effect)
  addMemberRes : KeyBundle → Except String (List Effect)
  assignRoleRes : UserId → Role → Except String (List Effect)
  assignLabelRes : UserId → Nat → ChanOp → Except String (List Effect)
  revokeLabelRes : UserId → Nat → Except String (List Effect)
  revokeRoleRes : UserId → Role → Except String (List Effect)
  removeMemberRes : UserId → Except String (List Effect)
  addrRes : Except String Unit
  syncPeerRes : Except String Unit
  collectRes : Except String (List Effect)
  readHostsRes : Except String String
  writeRes : String → String → Except String Unit

/-- The result type of one modelled method: the Rust return value and the
trace of events the method performed. -/
abbrev Run (α : Type) := Except String α × List Event

/-- One external call: record the attempt and its outcome. -/
def call {α : Type} (res : Except String α) (ev : Bool → Event) : Run α :=
  match res with
  | Except.ok a => (Except.ok a, [ev true])
  | Except.error e => (Except.error e, [ev false])

/-- Rust's `?`: run the first step; on success continue, on error stop,
keeping the events already performed. -/
def andThen {α β : Type} (step : Run α) (k : α → Run β) : Run β :=
  match step with
  | (Except.ok a, tr) =>
    let next := k a
    (next.1, tr ++ next.2)
  | (Except.error e, tr) => (Except.error e, tr)

/-- The manager's configuration: `keys_path` and `hosts_path`. -/
structure Mgr where
  keys_path : String
  hosts_path : String

/-- `PathBuf::join`. -/
def pathJoin (a b : String) : String := a ++ "/" ++ b

/-- Split a character list at every newline, keeping empty segments (the
character-level behaviour of splitting a string on `"\n"`). -/
def splitNl : List Char → List Char → List (List Char)
  | [], acc => [acc.reverse]
  | c :: rest, acc =>
    if c = '\n' then acc.reverse :: splitNl rest []
    else splitNl rest (c :: acc)

/-- Strip one trailing carriage return. -/
def stripCr (l : List Char) : List Char :=
  match l.reverse with
  | '\r' :: rest => rest.reverse
  | _ => l

/-- Rust's `str::lines()`: split on newline, drop a final empty segment,
strip one trailing carriage return from each line. -/
def rustLines (s : String) : List String :=
  let parts := splitNl s.data []
  let parts :=
    match parts.getLast? with
    | some last => if last = [] then parts.dropLast else parts
    | none => parts
  parts.map (fun l => String.mk (stripCr l))

/-- Rust's `str::trim()`: drop leading and trailing whitespace.  (Rust trims
by the Unicode white-space property; for the ASCII host names at issue the
Lean `Char.isWhitespace` set — space, tab, carriage return, newline — is the
same.) -/
def rustTrim (s : String) : String :=
  String.mk (((s.data.dropWhile Char.isWhitespace).reverse.dropWhile
    Char.isWhitespace).reverse)

/-- Decidable equality for `Except`, so concrete runs can be settled by
`decide`. -/
instance {ε α : Type} [DecidableEq ε] [DecidableEq α] :
    DecidableEq (Except ε α) := fun a b =>
  match a, b with
  | Except.ok x, Except.ok y =>
    if h : x = y then Decidable.isTrue (by rw [h])
    else Decidable.isFalse (by intro hc; cases hc; exact h rfl)
  | Except.error x, Except.error y =>
    if h : x = y then Decidable.isTrue (by rw [h])
    else Decidable.isFalse (by intro hc; cases hc; exact h rfl)
  | Except.ok _, Except.error _ => Decidable.isFalse (by intro hc; cases hc)
  | Except.error _, Except.ok _ => Decidable.isFalse (by intro hc; cases hc)

/-! ## The manager's methods (ssh-aranya.rs, lines 56-245) -/

/-- The constant text `update_host_keys` renders:
`format!("# Generated by Aranya SSH Access Manager\n")`. -/
def headerText : String := "# Generated by Aranya SSH Access Manager\n"

/-- `deploy_keys_to_host` (lines 229-245): the deployment is a stub that
prints and returns `Ok(())`; the `scp` invocation is commented out. -/
def deploy_keys_to_host (hostname keys_file : String) : Run Unit :=
  (Except.ok (), [Event.deploy hostname keys_file])

/-- `update_host_keys` (lines 210-226): write the constant header text to
`keys_path/<hostname>.keys`, then deploy it to the host. -/
def update_host_keys (env : Env) (mgr : Mgr) (hostname : String) : Run Unit :=
  let keys_file := pathJoin mgr.keys_path (hostname ++ ".keys")
  andThen (call (env.writeRes keys_file headerText)
      (Event.fileWrite keys_file headerText)) (fun _ =>
    deploy_keys_to_host hostname keys_file)

/-- The `for host in hosts.lines()` loop of `update_authorized_keys`
(lines 200-204): skip lines whose trim is empty, refresh the rest, stopping
at the first error (the loop body uses `?`). -/
def refreshHosts (env : Env) (mgr : Mgr) : List String → Run Unit
  | [] => (Except.ok (), [])
  | host :: rest =>
    if rustTrim host = "" then refreshHosts env mgr rest
    else andThen (update_host_keys env mgr host) (fun _ =>
      refreshHosts env mgr rest)

/-- `update_authorized_keys` (lines 196-207): read `hosts_path/hosts.txt`,
then run the per-host loop. -/
def update_authorized_keys (env : Env) (mgr : Mgr) : Run Unit :=
  andThen (call env.readHostsRes Event.readHosts) (fun hosts =>
    refreshHosts env mgr (rustLines hosts))

/-- `add_ssh_user` (lines 56-85): add the member, extract the user id from
the effects (the code's extraction is a placeholder returning the zero id
whenever a `member_added` effect is present), assign the SSH role chosen by
`is_admin`, open the SSH transport label, refresh all keys, return the id. -/
def add_ssh_user (env : Env) (mgr : Mgr) (user_keys : KeyBundle)
    (is_admin : Bool) : Run UserId :=
  andThen (call (env.addMemberRes user_keys) (Event.addMember user_keys))
    (fun effects =>
      match effects.findSome? (fun e =>
          if e.name = "member_added" then some zeroUserId else none) with
      | none => (Except.error "Failed to extract user ID from effects", [])
      | some user_id =>
        let role := if is_admin then SSH_ADMIN_ROLE else SSH_USER_ROLE
        andThen (call (env.assignRoleRes user_id role)
            (Event.assignRole user_id role)) (fun _ =>
          andThen (call (env.assignLabelRes user_id SSH_LABEL ChanOp.chanOpen)
              (Event.assignLabel user_id SSH_LABEL ChanOp.chanOpen)) (fun _ =>
            andThen (update_authorized_keys env mgr) (fun _ =>
              (Except.ok user_id, [])))))

/-- `remove_ssh_user` (lines 88-112): revoke the SSH transport label, revoke
the user role, revoke the admin role, remove the member, then refresh all
authorized-keys files. -/
def remove_ssh_user (env : Env) (mgr : Mgr) (user_id : UserId) : Run Unit :=
  andThen (call (env.revokeLabelRes user_id SSH_LABEL)
      (Event.revokeLabel user_id SSH_LABEL)) (fun _ =>
    andThen (call (env.revokeRoleRes user_id SSH_USER_ROLE)
        (Event.revokeRole user_id SSH_USER_ROLE)) (fun _ =>
      andThen (call (env.revokeRoleRes user_id SSH_ADMIN_ROLE)
          (Event.revokeRole user_id SSH_ADMIN_ROLE)) (fun _ =>
        andThen (call (env.removeMemberRes user_id)
            (Event.removeMember user_id)) (fun _ =>
          update_authorized_keys env mgr))))

/-- `grant_host_access` (lines 115-133): derive the host label from the
hostname hash, define that label, assign it to the user with `ChanOp::Open`,
then refresh that single host's key file.  There is no registry lookup and
no collision check. -/
def grant_host_access (env : Env) (mgr : Mgr) (user_id : UserId)
    (hostname : String) : Run Unit :=
  let host_label := hash_hostname hostname
  andThen (call (env.defineLabelRes host_label)
      (Event.defineLabel host_label)) (fun _ =>
    andThen (call (env.assignLabelRes user_id host_label ChanOp.chanOpen)
        (Event.assignLabel user_id host_label ChanOp.chanOpen)) (fun _ =>
      update_host_keys env mgr hostname))

/-- `revoke_host_access` (lines 136-149): revoke the derived host label from
the user, then refresh that host's key file. -/
def revoke_host_access (env : Env) (mgr : Mgr) (user_id : UserId)
    (hostname : String) : Run Unit :=
  let host_label := hash_hostname hostname
  andThen (call (env.revokeLabelRes user_id host_label)
      (Event.revokeLabel user_id host_label)) (fun _ =>
    update_host_keys env mgr hostname)

/-! ## The sync daemon (lines 152-193) -/

/-- `sync_and_update_keys` (lines 173-193): build the peer address, sync
with the peer, collect the effects; a non-empty effect list only triggers a
log line ("Received .. effects"), no key update is performed. -/
def sync_and_update_keys (env : Env) : Run Unit :=
  andThen ((env.addrRes, [])) (fun _ =>
    andThen (call env.syncPeerRes Event.syncPeer) (fun _ =>
      andThen ((env.collectRes, [])) (fun _ => (Except.ok (), []))))

/-- One tick of the spawned loop in `start_sync_daemon` (lines 159-166):
run `sync_and_update_keys`; on error print `Sync error: ..` and continue.
Returns the events of the tick and the error message logged, if any. -/
def syncTick (env : Env) : List Event × Option String :=
  match sync_and_update_keys env with
  | (Except.ok _, tr) => (tr, none)
  | (Except.error e, tr) => (tr, some ("Sync error: " ++ e))

/-- The spawned loop run for a finite prefix of ticks, one environment per
tick: every tick runs, whatever the previous ticks' outcomes were. -/
def runSyncLoop : List Env → List (List Event × Option String)
  | [] => []
  | env :: rest => syncTick env :: runSyncLoop rest

/-- `start_sync_daemon` (lines 152-170): spawn the loop and return `Ok(())`
immediately; the return value never depends on anything the loop does. -/
def start_sync_daemon (_ticks : List Env) : Except String Unit :=
  Except.ok ()

/-! ## Concrete environments used by the theorems -/

/-- An effect list as the graph would answer `add_member`: one
`member_added` effect (payload all zero). -/
def memberAddedEffect : Effect := { name := "member_added", data := List.replicate 32 0 }

/-- The all-success environment: every graph action succeeds, `hosts.txt`
holds the single host `db1`, every file write succeeds. -/
def okEnv : Env where
  defineLabelRes := fun _ => Except.ok []
  addMemberRes := fun _ => Except.ok [memberAddedEffect]
  assignRoleRes := fun _ _ => Except.ok []
  assignLabelRes := fun _ _ _ => Except.ok []
  revokeLabelRes := fun _ _ => Except.ok []
  revokeRoleRes := fun _ _ => Except.ok []
  removeMemberRes := fun _ => Except.ok []
  addrRes := Except.ok ()
  syncPeerRes := Except.ok ()
  collectRes := Except.ok []
  readHostsRes := Except.ok "db1"
  writeRes := fun _ _ => Except.ok ()

/-- A manager with key directory `keys` and host directory `hosts`. -/
def mgr0 : Mgr := { keys_path := "keys", hosts_path := "hosts" }

/-- A fixed non-admin key bundle for concrete runs. -/
def kb0 : KeyBundle := [1, 2, 3]

/-- A fixed principal for concrete runs. -/
def u0 : UserId := List.replicate 32 0

/-! ## Trace predicates and further concrete environments -/

/-- Is this event a deployment to the given host? -/
def isDeployTo (host : String) : Event → Bool
  | Event.deploy h _ => h == host
  | _ => false

/-- How many deployments to this host does the trace contain? -/
def deployCount (host : String) (tr : List Event) : Nat :=
  (tr.filter (isDeployTo host)).length

/-- The attempted file writes of a trace, as (path, content) pairs. -/
def writesOf : List Event → List (String × String)
  | [] => []
  | Event.fileWrite p c _ :: rest => (p, c) :: writesOf rest
  | _ :: rest => writesOf rest

/-- Does every event before the first (attempted) `remove_member` avoid
touching key files and deployment? -/
def noRefreshBeforeRemoval (tr : List Event) : Bool :=
  (tr.takeWhile (fun e => !(e.isRemoveMember))).all (fun e => !(e.isFS))

/-- Did some graph action in the trace fail? -/
def graphFailed (tr : List Event) : Bool :=
  tr.any (fun e => e.isGraph && !(e.okFlag))

/-- Does the trace touch key files or deployment at all? -/
def hasFS (tr : List Event) : Bool := tr.any Event.isFS

/-- The sequencing discipline of claim C9: once the trace reaches its first
file/deploy event no further graph action occurs, and if some graph action
failed then the trace contains no file/deploy event at all. -/
def seqOk (tr : List Event) : Bool :=
  ((tr.dropWhile (fun e => !(e.isFS))).all (fun e => !(e.isGraph))) &&
  (!(graphFailed tr) || !(hasFS tr))

/-- Is this event a `sync_peer` attempt? -/
def isSyncPeer : Event → Bool
  | Event.syncPeer _ => true
  | _ => false

/-- Number of `sync_peer` attempts in a trace. -/
def syncAttempts (tr : List Event) : Nat :=
  (tr.filter isSyncPeer).length

/-- Environment for the C4 counterexample: `hosts.txt` lists `a` and `b`,
and writing `a`'s key file fails while every other write succeeds. -/
def envC4 : Env :=
  { okEnv with
    readHostsRes := Except.ok "a\nb"
    writeRes := fun path _ =>
      if path = "keys/a.keys" then Except.error "disk full" else Except.ok () }

/-- A nonzero 32-byte identity (last byte 7), as a graph would mint it. -/
def idSeven : List Nat := List.replicate 31 0 ++ [7]

/-- Environment for C7: `add_member` answers with a `member_added` effect
whose payload carries the (nonzero) identity `idSeven`. -/
def envC7 : Env :=
  { okEnv with
    addMemberRes := fun _ => Except.ok [{ name := "member_added", data := idSeven }] }

/-- Environment for C7's error path: `add_member` succeeds but its effect
list contains no `member_added` effect. -/
def envNoMemberEffect : Env :=
  { okEnv with
    addMemberRes := fun _ => Except.ok [{ name := "label_defined", data := [] }] }

/-- Environment with a given `hosts.txt` content and all writes succeeding. -/
def envHosts (content : String) : Env :=
  { okEnv with readHostsRes := Except.ok content }

/-- A tick environment whose peer sync fails. -/
def envBadTick : Env := { okEnv with syncPeerRes := Except.error "net down" }

/-- The events the spec's words predict for a full refresh over the given
host lines: one write of the rendered file and one deployment for exactly
the lines that are non-empty after trimming, in order. -/
def expectedRefreshEvents (mgr : Mgr) (ls : List String) : List Event :=
  (ls.filter (fun l => !(rustTrim l == ""))).flatMap (fun l =>
    [Event.fileWrite (pathJoin mgr.keys_path (l ++ ".keys")) headerText true,
     Event.deploy l (pathJoin mgr.keys_path (l ++ ".keys"))])

/-- Deployments of a trace, as (host, key-file path) pairs. -/
def deploysOf : List Event → List (String × String)
  | [] => []
  | Event.deploy h p :: rest => (h, p) :: deploysOf rest
  | _ :: rest => deploysOf rest

/-- Granting the same user the same host twice in a row (claim C5). -/
def grantTwice (u : UserId) (h : String) : Run Unit :=
  andThen (grant_host_access okEnv mgr0 u h) (fun _ =>
    grant_host_access okEnv mgr0 u h)

/-! ## Helper lemmas -/

theorem call_ok {α : Type} (a : α) (ev : Bool → Event) :
    call (Except.ok a) ev = (Except.ok a, [ev true]) := rfl

theorem call_error {α : Type} (e : String) (ev : Bool → Event) :
    call (α := α) (Except.error e) ev = (Except.error e, [ev false]) := rfl

theorem andThen_ok {α β : Type} (a : α) (tr : List Event) (k : α → Run β) :
    andThen (Except.ok a, tr) k = ((k a).1, tr ++ (k a).2) := rfl

theorem andThen_error {α β : Type} (e : String) (tr : List Event) (k : α → Run β) :
    andThen (α := α) (β := β) (Except.error e, tr) k = (Except.error e, tr) := rfl

/-- In the all-success environment, `grant_host_access` performs exactly:
define the derived label, assign it, write the host's key file, deploy. -/
theorem grant_okEnv_run (u : UserId) (h : String) :
    grant_host_access okEnv mgr0 u h =
      (Except.ok (),
       [Event.defineLabel (hash_hostname h) true,
        Event.assignLabel u (hash_hostname h) ChanOp.chanOpen true,
        Event.fileWrite (pathJoin "keys" (h ++ ".keys")) headerText true,
        Event.deploy h (pathJoin "keys" (h ++ ".keys"))]) := rfl


theorem all_dropWhile {α : Type} (p q : α → Bool) (l : List α)
    (hl : l.all p = true) : (l.dropWhile q).all p = true := by
  induction l with
  | nil => rfl
  | cons a l ih =>
    simp only [List.all_cons, Bool.and_eq_true] at hl
    rw [List.dropWhile_cons]
    by_cases hq : q a = true
    · rw [if_pos hq]
      exact ih hl.2
    · rw [if_neg hq, List.all_cons, hl.1, Bool.true_and]
      exact hl.2

theorem graphFailed_false_of_no_graph (l : List Event)
    (hl : l.all (fun e => !(e.isGraph)) = true) : graphFailed l = false := by
  induction l with
  | nil => rfl
  | cons a l ih =>
    simp only [List.all_cons, Bool.and_eq_true] at hl
    have ha : a.isGraph = false := by
      rcases hl with ⟨h1, _⟩
      cases h : a.isGraph
      · rfl
      · rw [h] at h1; exact absurd h1 (by decide)
    show ((a :: l).any fun e => e.isGraph && !(e.okFlag)) = false
    simp only [List.any_cons, ha, Bool.false_and, Bool.false_or]
    exact ih hl.2

/-- `seqOk` holds for a trace made of successful graph actions followed by a
graph-action-free tail. -/
theorem seqOk_append_tail (G T : List Event)
    (hg : G.all (fun e => e.isGraph && e.okFlag) = true)
    (ht : T.all (fun e => !(e.isGraph)) = true) :
    seqOk (G ++ T) = true := by
  induction G with
  | nil =>
    rw [List.nil_append]
    unfold seqOk
    rw [all_dropWhile _ _ T ht, graphFailed_false_of_no_graph T ht]
    rfl
  | cons a G ih =>
    simp only [List.all_cons, Bool.and_eq_true] at hg
    have hga : a.isGraph = true := by
      rcases hg with ⟨⟨h1, _⟩, _⟩
      exact h1
    have hoka : a.okFlag = true := hg.1.2
    have hfs : a.isFS = false := by
      cases a <;> first | rfl | exact Bool.noConfusion hga
    have hR := ih hg.2
    rw [List.cons_append]
    unfold seqOk at hR ⊢
    rw [Bool.and_eq_true] at hR ⊢
    refine ⟨?_, ?_⟩
    · rw [List.dropWhile_cons_of_pos]
      · exact hR.1
      · show (!(a.isFS)) = true
        rw [hfs]; rfl
    · have h1 : graphFailed (a :: (G ++ T)) = graphFailed (G ++ T) := by
        show ((a :: (G ++ T)).any fun e => e.isGraph && !(e.okFlag)) = _
        simp only [List.any_cons, hga, hoka, Bool.not_true, Bool.and_false,
          Bool.false_or]
        rfl
      have h2 : hasFS (a :: (G ++ T)) = hasFS (G ++ T) := by
        show ((a :: (G ++ T)).any Event.isFS) = _
        simp only [List.any_cons, hfs, Bool.false_or]
        rfl
      rw [h1, h2]
      exact hR.2

/-- The per-host key refresh makes no graph calls. -/
theorem update_host_keys_no_graph (env : Env) (mgr : Mgr) (h : String) :
    ((update_host_keys env mgr h).2).all (fun e => !(e.isGraph)) = true := by
  cases hw : env.writeRes (pathJoin mgr.keys_path (h ++ ".keys")) headerText with
  | ok a =>
    simp only [update_host_keys, deploy_keys_to_host, hw, call_ok, andThen_ok]
    rfl
  | error e =>
    simp only [update_host_keys, deploy_keys_to_host, hw, call_error, andThen_error]
    rfl

/-- The host-list refresh loop makes no graph calls. -/
theorem refreshHosts_no_graph (env : Env) (mgr : Mgr) (ls : List String) :
    ((refreshHosts env mgr ls).2).all (fun e => !(e.isGraph)) = true := by
  induction ls with
  | nil => rfl
  | cons h rest ih =>
    simp only [refreshHosts]
    by_cases hb : rustTrim h = ""
    · rw [if_pos hb]
      exact ih
    · rw [if_neg hb]
      rcases hu : update_host_keys env mgr h with ⟨res, tr⟩
      have htr : tr.all (fun e => !(e.isGraph)) = true := by
        have h2 := update_host_keys_no_graph env mgr h
        rw [hu] at h2
        exact h2
      cases res with
      | ok a =>
        rw [andThen_ok, List.all_append, htr, Bool.true_and]
        exact ih
      | error e =>
        rw [andThen_error]
        exact htr

/-- The full refresh makes no graph calls. -/
theorem update_authorized_keys_no_graph (env : Env) (mgr : Mgr) :
    ((update_authorized_keys env mgr).2).all (fun e => !(e.isGraph)) = true := by
  cases hr : env.readHostsRes with
  | ok s =>
    simp only [update_authorized_keys, hr, call_ok, andThen_ok, List.all_append]
    rw [refreshHosts_no_graph env mgr (rustLines s)]
    rfl
  | error e =>
    simp only [update_authorized_keys, hr, call_error, andThen_error]
    rfl

/-! ## Claims -/

/-- C2: `hash_hostname` agrees with the spec's `deriveLabel` formula — the
seed-0, multiplier-31, wrapping-u32, byte-wise rolling hash of the
hostname's UTF-8 bytes mapped through `2000 + (hash mod 1000)` — and every
derived label lies in the reserved range [2000, 3000). -/
theorem c2_derive_label_formula_and_range (hostname : String) :
    hash_hostname hostname = deriveLabelSpec hostname ∧
    hash_hostname hostname = 2000 + rollHash (strBytes hostname) % 1000 ∧
    2000 ≤ hash_hostname hostname ∧ hash_hostname hostname < 3000 := by
  refine ⟨rfl, rfl, ?_⟩
  have h := Nat.mod_lt (rollHash (strBytes hostname)) (y := 1000) (by decide)
  unfold hash_hostname
  omega

/-- C2 witness: the properties at the concrete hostname `db1`. -/
theorem c2_witness :
    hash_hostname "db1" = deriveLabelSpec "db1" ∧
    hash_hostname "db1" = 2000 + rollHash (strBytes "db1") % 1000 ∧
    2000 ≤ hash_hostname "db1" ∧ hash_hostname "db1" < 3000 :=
  c2_derive_label_formula_and_range "db1"

/-- C1: what the code actually renders in the claim's scenario.  Adding a
non-admin user and granting it access to `db1` succeeds, but the key file
written for `db1` is the constant header line for every principal: it never
contains the granted user's public key, so the rendered principal set is
not `exactly the granted user U` as the claim states. -/
theorem c1_keyfile_is_constant_header :
    (andThen (add_ssh_user okEnv mgr0 kb0 false) (fun u =>
      grant_host_access okEnv mgr0 u "db1")).1 = Except.ok () ∧
    (∀ u : UserId, (grant_host_access okEnv mgr0 u "db1").2.filter Event.isFS =
      [Event.fileWrite "keys/db1.keys" headerText true,
       Event.deploy "db1" "keys/db1.keys"]) ∧
    headerText = "# Generated by Aranya SSH Access Manager\n" := by
  refine ⟨by decide, ?_, rfl⟩
  intro u
  rfl

/-- C3 counterexample: `a` and `aZ` are distinct hostnames with colliding
derived labels, yet binding `a` and then `aZ` does not fail with a
`LabelCollision` error — both grants succeed and no call in either run is
rejected. -/
theorem c3_collision_unchecked_counterexample :
    ¬ ("a" = "aZ") ∧ hash_hostname "a" = hash_hostname "aZ" ∧
    (andThen (grant_host_access okEnv mgr0 u0 "a") (fun _ =>
      grant_host_access okEnv mgr0 u0 "aZ")).1 = Except.ok () ∧
    (andThen (grant_host_access okEnv mgr0 u0 "a") (fun _ =>
      grant_host_access okEnv mgr0 u0 "aZ")).2.filter
        (fun e => !(e.okFlag)) = [] := by
  decide

/-- C3 amended: when two hostnames collide on their derived label, binding
the first and then the second does not fail — `grant_host_access` keeps no
host registry, performs no collision check, and silently defines and
assigns the same numeric label for the second hostname as well. -/
theorem c3_amended_silent_label_reuse (u : UserId) (h1 h2 : String)
    (hcol : hash_hostname h1 = hash_hostname h2) :
    (grant_host_access okEnv mgr0 u h1).1 = Except.ok () ∧
    (grant_host_access okEnv mgr0 u h2).1 = Except.ok () ∧
    (grant_host_access okEnv mgr0 u h2).2.head? =
      some (Event.defineLabel (hash_hostname h1) true) := by
  rw [grant_okEnv_run u h1, grant_okEnv_run u h2, hcol]
  exact ⟨rfl, rfl, rfl⟩

/-- C3 amended witness: instantiated at the colliding pair `a`, `aZ`. -/
theorem c3_amended_witness :
    (grant_host_access okEnv mgr0 u0 "a").1 = Except.ok () ∧
    (grant_host_access okEnv mgr0 u0 "aZ").1 = Except.ok () ∧
    (grant_host_access okEnv mgr0 u0 "aZ").2.head? =
      some (Event.defineLabel (hash_hostname "a") true) :=
  c3_amended_silent_label_reuse u0 "a" "aZ" (by decide)

/-- C5 counterexample: granting the same user the same host twice deploys
to that host twice — not at most once as the claim states; there is no
content-hash check that could skip the second deployment. -/
theorem c5_second_grant_redeploys_counterexample :
    deployCount "db1" (grantTwice u0 "db1").2 = 2 ∧
    ¬ (deployCount "db1" (grantTwice u0 "db1").2 ≤ 1) := by
  decide

/-- C5 amended: calling `grant_host_access` twice with the same arguments
writes the identical (constant) key-file content both times, and each call
unconditionally triggers a deployment: exactly two deployments, with no
content-hash comparison to skip the second. -/
theorem c5_amended_same_content_deploy_each_call (u : UserId) (h : String) :
    (grantTwice u h).1 = Except.ok () ∧
    writesOf (grantTwice u h).2 =
      [(pathJoin "keys" (h ++ ".keys"), headerText),
       (pathJoin "keys" (h ++ ".keys"), headerText)] ∧
    deploysOf (grantTwice u h).2 =
      [(h, pathJoin "keys" (h ++ ".keys")),
       (h, pathJoin "keys" (h ++ ".keys"))] := by
  exact ⟨rfl, rfl, rfl⟩

/-- C4 counterexample: with `hosts.txt` listing the hosts `a` and `b` and
the write of `a`'s key file failing, the full refresh aborts at `a`: it
returns that error and performs nothing at all for `b`, although `b` is a
non-blank host line — the failure is propagated, not collected, and it
suppresses the refresh of the remaining host. -/
theorem c4_refresh_aborts_counterexample :
    rustLines "a\nb" = ["a", "b"] ∧
    ¬ (rustTrim "b" = "") ∧
    (update_authorized_keys envC4 mgr0).1 = Except.error "disk full" ∧
    (update_authorized_keys envC4 mgr0).2 =
      [Event.readHosts true, Event.fileWrite "keys/a.keys" headerText false] := by
  decide

/-- C4 amended: the refresh loop visits hosts in order but stops at the
first per-host failure, returning that host's error; hosts after the
failing one are not refreshed. -/
theorem c4_amended_abort_on_first_failure (env : Env) (mgr : Mgr)
    (hst : String) (rest : List String) (e : String) (tr : List Event)
    (hnb : ¬ (rustTrim hst = ""))
    (hfail : update_host_keys env mgr hst = (Except.error e, tr)) :
    refreshHosts env mgr (hst :: rest) = (Except.error e, tr) := by
  simp only [refreshHosts]
  rw [if_neg hnb, hfail, andThen_error]

/-- C4 amended witness: instantiated at the environment of the
counterexample — the loop over `a` then `b` stops with `a`'s error. -/
theorem c4_amended_witness :
    refreshHosts envC4 mgr0 ["a", "b"] =
      (Except.error "disk full",
       [Event.fileWrite "keys/a.keys" headerText false]) :=
  c4_amended_abort_on_first_failure envC4 mgr0 "a" ["b"] "disk full"
    [Event.fileWrite "keys/a.keys" headerText false] (by decide) (by decide)

theorem noRefresh_cons (a : Event) (tr : List Event)
    (ha1 : a.isRemoveMember = false) (ha2 : a.isFS = false) :
    noRefreshBeforeRemoval (a :: tr) = noRefreshBeforeRemoval tr := by
  unfold noRefreshBeforeRemoval
  rw [List.takeWhile_cons, ha1]
  simp [ha2]

theorem noRefresh_stop (a : Event) (tr : List Event)
    (ha : a.isRemoveMember = true) :
    noRefreshBeforeRemoval (a :: tr) = true := by
  unfold noRefreshBeforeRemoval
  rw [List.takeWhile_cons, ha]
  simp

/-- C6: `remove_ssh_user` performs its steps in exactly this order — revoke
the SSH transport label, revoke the `SshUser` role, revoke the `SshAdmin`
role, remove team membership, and only then refresh the key files; in every
environment (including any failure pattern) no file write or deployment
occurs before the `remove_member` call. -/
theorem c6_remove_user_step_order :
    (∀ env mgr u, noRefreshBeforeRemoval (remove_ssh_user env mgr u).2 = true) ∧
    (∀ u : UserId, remove_ssh_user okEnv mgr0 u =
      (Except.ok (),
       [Event.revokeLabel u SSH_LABEL true,
        Event.revokeRole u SSH_USER_ROLE true,
        Event.revokeRole u SSH_ADMIN_ROLE true,
        Event.removeMember u true,
        Event.readHosts true,
        Event.fileWrite "keys/db1.keys" headerText true,
        Event.deploy "db1" "keys/db1.keys"])) := by
  constructor
  · intro env mgr u
    unfold remove_ssh_user
    cases h1 : env.revokeLabelRes u SSH_LABEL with
    | error e1 => simp only [h1, call_error, andThen_error]; rfl
    | ok l1 =>
      simp only [h1, call_ok, andThen_ok, List.cons_append, List.nil_append]
      cases h2 : env.revokeRoleRes u SSH_USER_ROLE with
      | error e2 => simp only [h2, call_error, andThen_error]; rfl
      | ok l2 =>
        simp only [h2, call_ok, andThen_ok, List.cons_append, List.nil_append]
        cases h3 : env.revokeRoleRes u SSH_ADMIN_ROLE with
        | error e3 => simp only [h3, call_error, andThen_error]; rfl
        | ok l3 =>
          simp only [h3, call_ok, andThen_ok, List.cons_append, List.nil_append]
          cases h4 : env.removeMemberRes u with
          | error e4 =>
            simp only [h4, call_error, andThen_error]
            rw [noRefresh_cons (Event.revokeLabel u SSH_LABEL true) _ rfl rfl,
              noRefresh_cons (Event.revokeRole u SSH_USER_ROLE true) _ rfl rfl,
              noRefresh_cons (Event.revokeRole u SSH_ADMIN_ROLE true) _ rfl rfl]
            exact noRefresh_stop (Event.removeMember u false) _ rfl
          | ok l4 =>
            simp only [h4, call_ok, andThen_ok, List.cons_append, List.nil_append]
            rw [noRefresh_cons (Event.revokeLabel u SSH_LABEL true) _ rfl rfl,
              noRefresh_cons (Event.revokeRole u SSH_USER_ROLE true) _ rfl rfl,
              noRefresh_cons (Event.revokeRole u SSH_ADMIN_ROLE true) _ rfl rfl]
            exact noRefresh_stop (Event.removeMember u true) _ rfl
  · intro u
    rfl

/-- C7: the code's behaviour at `add_ssh_user`.  With an effect list whose
`member_added` effect carries the nonzero identity `idSeven`, the function
still returns the constant zero identity — the identity is not extracted
from the effect, contrary to the claim; the role assigned for a non-admin
is `SshUser`, the transport label is opened, and when no `member_added`
effect is present the call fails with the missing-identity error. -/
theorem c7_identity_extraction_stubbed :
    (add_ssh_user envC7 mgr0 kb0 false).1 = Except.ok zeroUserId ∧
    ¬ (zeroUserId = idSeven) ∧
    (add_ssh_user envC7 mgr0 kb0 false).2 =
      [Event.addMember kb0 true,
       Event.assignRole zeroUserId SSH_USER_ROLE true,
       Event.assignLabel zeroUserId SSH_LABEL ChanOp.chanOpen true,
       Event.readHosts true,
       Event.fileWrite "keys/db1.keys" headerText true,
       Event.deploy "db1" "keys/db1.keys"] ∧
    (add_ssh_user envNoMemberEffect mgr0 kb0 false).1 =
      Except.error "Failed to extract user ID from effects" ∧
    (add_ssh_user envNoMemberEffect mgr0 kb0 false).2 =
      [Event.addMember kb0 true] := by
  decide

theorem syncTick_fst (env : Env) :
    (syncTick env).1 = (sync_and_update_keys env).2 := by
  unfold syncTick
  rcases hs : sync_and_update_keys env with ⟨res, tr⟩
  cases res <;> rfl

/-- C8: `start_sync_daemon` returns `Ok(())` whatever the loop later does;
the loop processes every tick no matter how earlier ticks ended; a tick
attempts the peer sync at most once (no retry inside a tick); and a failed
tick only logs `Sync error: ..` — the error is never propagated. -/
theorem c8_sync_loop_survives_errors :
    (∀ ticks : List Env, start_sync_daemon ticks = Except.ok ()) ∧
    (∀ env rest, runSyncLoop (env :: rest) = syncTick env :: runSyncLoop rest) ∧
    (∀ env, syncAttempts (syncTick env).1 ≤ 1) ∧
    (∀ env e, (sync_and_update_keys env).1 = Except.error e →
      (syncTick env).2 = some ("Sync error: " ++ e)) := by
  refine ⟨fun _ => rfl, fun _ _ => rfl, ?_, ?_⟩
  · intro env
    rw [syncTick_fst]
    unfold sync_and_update_keys
    cases ha : env.addrRes with
    | error ea => rw [andThen_error]; exact Nat.zero_le 1
    | ok a =>
      rw [andThen_ok, List.nil_append]
      cases hp : env.syncPeerRes with
      | error ep => simp only [hp, call_error, andThen_error]; exact Nat.le_refl 1
      | ok p =>
        simp only [hp, call_ok, andThen_ok, List.cons_append, List.nil_append]
        cases hc : env.collectRes with
        | error ec => rw [andThen_error]; exact Nat.le_refl 1
        | ok c => rw [andThen_ok]; exact Nat.le_refl 1
  · intro env e hfail
    unfold syncTick
    rcases hs : sync_and_update_keys env with ⟨res, tr⟩
    rw [hs] at hfail
    cases res with
    | ok a => exact Except.noConfusion hfail
    | error e2 =>
      have h2 : Except.error (ε := String) (α := Unit) e2 = Except.error e := hfail
      injection h2 with h3
      rw [h3]

/-- C8 witness: at a tick whose peer sync fails with `net down`, the daemon
still returns success, the loop continues, at most one sync is attempted,
and the error is only logged. -/
theorem c8_witness :
    start_sync_daemon [envBadTick] = Except.ok () ∧
    runSyncLoop [envBadTick] = syncTick envBadTick :: runSyncLoop [] ∧
    syncAttempts (syncTick envBadTick).1 ≤ 1 ∧
    (syncTick envBadTick).2 = some ("Sync error: " ++ "net down") :=
  ⟨c8_sync_loop_survives_errors.1 [envBadTick],
   c8_sync_loop_survives_errors.2.1 envBadTick [],
   c8_sync_loop_survives_errors.2.2.1 envBadTick,
   c8_sync_loop_survives_errors.2.2.2 envBadTick "net down" (by decide)⟩

/-- C9: in each administrative operation every local file write and
deployment is sequenced strictly after every graph action, and whenever a
graph action fails the operation performs no file write or deployment at
all (local key-file state is untouched on graph failure) — over every
environment, so over every failure pattern. -/
theorem c9_graph_actions_precede_writes (env : Env) (mgr : Mgr)
    (kb : KeyBundle) (adm : Bool) (u : UserId) (h : String) :
    seqOk (add_ssh_user env mgr kb adm).2 = true ∧
    seqOk (remove_ssh_user env mgr u).2 = true ∧
    seqOk (grant_host_access env mgr u h).2 = true ∧
    seqOk (revoke_host_access env mgr u h).2 = true := by
  refine ⟨?_, ?_, ?_, ?_⟩
  · unfold add_ssh_user
    cases h1 : env.addMemberRes kb with
    | error e1 => simp only [h1, call_error, andThen_error]; rfl
    | ok effects =>
      simp only [h1, call_ok, andThen_ok, List.cons_append, List.nil_append]
      cases hf : effects.findSome? (fun e =>
          if e.name = "member_added" then some zeroUserId else none) with
      | none => simp only [hf]; rfl
      | some uid =>
        simp only [hf]
        cases h2 : env.assignRoleRes uid
            (if adm then SSH_ADMIN_ROLE else SSH_USER_ROLE) with
        | error e2 => simp only [h2, call_error, andThen_error]; rfl
        | ok l2 =>
          simp only [h2, call_ok, andThen_ok, List.cons_append, List.nil_append]
          cases h3 : env.assignLabelRes uid SSH_LABEL ChanOp.chanOpen with
          | error e3 => simp only [h3, call_error, andThen_error]; rfl
          | ok l3 =>
            simp only [h3, call_ok, andThen_ok, List.cons_append, List.nil_append]
            have htail := update_authorized_keys_no_graph env mgr
            rcases hu : update_authorized_keys env mgr with ⟨res, tr⟩
            rw [hu] at htail
            cases res with
            | ok a =>
              rw [andThen_ok, List.append_nil]
              exact seqOk_append_tail
                [Event.addMember kb true,
                 Event.assignRole uid (if adm then SSH_ADMIN_ROLE else SSH_USER_ROLE) true,
                 Event.assignLabel uid SSH_LABEL ChanOp.chanOpen true]
                tr rfl htail
            | error e4 =>
              rw [andThen_error]
              exact seqOk_append_tail
                [Event.addMember kb true,
                 Event.assignRole uid (if adm then SSH_ADMIN_ROLE else SSH_USER_ROLE) true,
                 Event.assignLabel uid SSH_LABEL ChanOp.chanOpen true]
                tr rfl htail
  · unfold remove_ssh_user
    cases h1 : env.revokeLabelRes u SSH_LABEL with
    | error e1 => simp only [h1, call_error, andThen_error]; rfl
    | ok l1 =>
      simp only [h1, call_ok, andThen_ok, List.cons_append, List.nil_append]
      cases h2 : env.revokeRoleRes u SSH_USER_ROLE with
      | error e2 => simp only [h2, call_error, andThen_error]; rfl
      | ok l2 =>
        simp only [h2, call_ok, andThen_ok, List.cons_append, List.nil_append]
        cases h3 : env.revokeRoleRes u SSH_ADMIN_ROLE with
        | error e3 => simp only [h3, call_error, andThen_error]; rfl
        | ok l3 =>
          simp only [h3, call_ok, andThen_ok, List.cons_append, List.nil_append]
          cases h4 : env.removeMemberRes u with
          | error e4 => simp only [h4, call_error, andThen_error]; rfl
          | ok l4 =>
            simp only [h4, call_ok, andThen_ok, List.cons_append, List.nil_append]
            exact seqOk_append_tail
              [Event.revokeLabel u SSH_LABEL true,
               Event.revokeRole u SSH_USER_ROLE true,
               Event.revokeRole u SSH_ADMIN_ROLE true,
               Event.removeMember u true]
              (update_authorized_keys env mgr).2 rfl
              (update_authorized_keys_no_graph env mgr)
  · unfold grant_host_access
    cases h1 : env.defineLabelRes (hash_hostname h) with
    | error e1 => simp only [h1, call_error, andThen_error]; rfl
    | ok l1 =>
      simp only [h1, call_ok, andThen_ok, List.cons_append, List.nil_append]
      cases h2 : env.assignLabelRes u (hash_hostname h) ChanOp.chanOpen with
      | error e2 => simp only [h2, call_error, andThen_error]; rfl
      | ok l2 =>
        simp only [h2, call_ok, andThen_ok, List.cons_append, List.nil_append]
        exact seqOk_append_tail
          [Event.defineLabel (hash_hostname h) true,
           Event.assignLabel u (hash_hostname h) ChanOp.chanOpen true]
          (update_host_keys env mgr h).2 rfl
          (update_host_keys_no_graph env mgr h)
  · unfold revoke_host_access
    cases h1 : env.revokeLabelRes u (hash_hostname h) with
    | error e1 => simp only [h1, call_error, andThen_error]; rfl
    | ok l1 =>
      simp only [h1, call_ok, andThen_ok, List.cons_append, List.nil_append]
      exact seqOk_append_tail
        [Event.revokeLabel u (hash_hostname h) true]
        (update_host_keys env mgr h).2 rfl
        (update_host_keys_no_graph env mgr h)

/-- In an environment where every file write succeeds, the refresh loop
succeeds and produces exactly one write and one deployment per host line
that is non-empty after trimming, in order. -/
theorem refreshHosts_ok_run (content : String) (mgr : Mgr) (ls : List String) :
    refreshHosts (envHosts content) mgr ls =
      (Except.ok (), expectedRefreshEvents mgr ls) := by
  induction ls with
  | nil => rfl
  | cons h rest ih =>
    simp only [refreshHosts]
    by_cases hb : rustTrim h = ""
    · rw [if_pos hb, ih]
      unfold expectedRefreshEvents
      rw [List.filter_cons]
      have hbeq : (!(rustTrim h == "")) = false := by rw [hb]; rfl
      rw [hbeq]
      simp
    · rw [if_neg hb]
      rw [show update_host_keys (envHosts content) mgr h =
        (Except.ok (),
         [Event.fileWrite (pathJoin mgr.keys_path (h ++ ".keys")) headerText true,
          Event.deploy h (pathJoin mgr.keys_path (h ++ ".keys"))]) from rfl]
      rw [andThen_ok, ih]
      unfold expectedRefreshEvents
      rw [List.filter_cons]
      have hbeq : (!(rustTrim h == "")) = true := by
        have h2 : (rustTrim h == "") = false := beq_eq_false_iff_ne.mpr hb
        rw [h2]; rfl
      rw [hbeq]
      simp

/-- C10: for every `hosts.txt` content, the full refresh (with every write
accepted) succeeds and its file activity is exactly one key-file write and
one deployment per line that is non-empty after trimming whitespace: blank
or whitespace-only lines produce no write and no deployment, so no key file
for an empty hostname is ever created. -/
theorem c10_refresh_exactly_nonblank_lines (content : String) (mgr : Mgr) :
    (update_authorized_keys (envHosts content) mgr).1 = Except.ok () ∧
    (update_authorized_keys (envHosts content) mgr).2 =
      Event.readHosts true :: expectedRefreshEvents mgr (rustLines content) := by
  have h := refreshHosts_ok_run content mgr (rustLines content)
  simp only [update_authorized_keys,
    show (envHosts content).readHostsRes = Except.ok content from rfl,
    call_ok, andThen_ok, h]
  exact ⟨trivial, rfl⟩
